import Mathlib

/-!
Verification of the certificate-provisioning core of the
`elasticsearch-operator` repository (`pkg/k8sutil/certs.go`).

The Go code is shallowly embedded as follows:

* The JSON-serialisable Go structs (`csr`, `caconfig`, `configSigning`,
  `configDefault`, `key`, `names`) become Lean structures of the same
  names and fields.
* `generateConfig` deterministically builds a fixed list of
  (path, document) pairs (`configDocs`) and writes them in order through
  an effect environment; `fmt.Sprintf("%s-%s", a, b)` is embedded as
  `a ++ "-" ++ b`, and so on for the other format strings (Go string
  formatting with `%s` is plain concatenation).
* External commands (`cfssl`, `cfssljson`, `openssl`, `keytool`) are
  embedded as a `Cmd` structure holding the binary name and the exact
  argument list built by the source.
* `GenerateCerts` is embedded as `GenerateCertsRun`, a function over an
  effect environment `Env` that supplies the outcome of every
  filesystem write, `pipeCommands` call, and `cmd.Output()` call.  It
  returns the propagated result together with the trace of steps that
  were actually attempted, in order.  Note that the source discards the
  results of its two `cleanUp` calls; the embedding mirrors this.
* `cleanUp` is embedded over a one-directory filesystem model
  (`Option (List String)`: `none` when the directory cannot be opened,
  otherwise the list of entry names); `os.RemoveAll` on an entry name
  removes every occurrence of that name and is fault-free in this model.
* `pipeCommands` is embedded over per-command behaviours
  (`CmdBehavior`): the result of `StdoutPipe()`, of `Start()` (whose
  error the source ignores), and of the final `Output()`.  The Go
  expression `commands[:len(commands)-1]` panics on an empty slice, so
  the embedding returns `Option`, with `none` standing for that panic.
* `CreateCertsSecret` is embedded over a filesystem
  `String → Option String` (path to contents, `none` when
  `ioutil.ReadFile` fails); the assembled secret data is an association
  list in the order of the Go map literal.
-/

namespace K8sutil

/-- Go struct `key` (certs.go): key algorithm and size of a CSR. -/
structure key where
  Algo : String
  Size : Int
deriving DecidableEq, Repr

/-- Go struct `names` (certs.go): distinguished-name fields. -/
structure names where
  O : String
  OU : String
  L : String
  C : String
  ST : String
deriving DecidableEq, Repr

/-- Go struct `csr` (certs.go): a certificate signing request descriptor. -/
structure csr where
  CN : Option String
  Hosts : List String
  Key : key
  Names : List names
deriving DecidableEq, Repr

/-- Go struct `configDefault` (certs.go): the default signing policy. -/
structure configDefault where
  Usages : List String
  Expiry : String
deriving DecidableEq, Repr

/-- Go struct `configSigning` (certs.go). -/
structure configSigning where
  Default : configDefault
deriving DecidableEq, Repr

/-- Go struct `caconfig` (certs.go): the CA signing-policy document. -/
structure caconfig where
  Signing : configSigning
deriving DecidableEq, Repr

/-- A document serialised by `generateConfig`: either the signing-policy
document or a CSR descriptor. -/
inductive Doc where
  | config (c : caconfig)
  | request (r : csr)
deriving DecidableEq, Repr

/-- The `caConfig` value built at the top of `generateConfig`. -/
def caConfigDoc : caconfig :=
  { Signing :=
    { Default :=
      { Usages := ["signing", "key encipherment", "server auth", "client auth"]
      , Expiry := "8760h" } } }

/-- The `caCSR` value built by `generateConfig`: hosts are derived from
`fmt.Sprintf("elasticsearch-%s", clusterName)` and the namespace. -/
def caCSR (ns cn : String) : csr :=
  { CN := none
  , Hosts :=
      [ "localhost"
      , "elasticsearch-" ++ cn
      , "elasticsearch-" ++ cn ++ "." ++ ns
      , "elasticsearch-" ++ cn ++ "." ++ ns ++ ".svc.cluster.local" ]
  , Key := { Algo := "rsa", Size := 2048 }
  , Names := [{ O := "elasticsearch-operator", OU := "k8s", L := "Pittsburgh"
              , C := "US", ST := "Pennsylvania" }] }

/-- The leaf CSR built inside the `for k, v := range map[...]` loop of
`generateConfig`, for loop key `k` (the identity name). -/
def leafCSR (k ns cn : String) : csr :=
  { CN := some k
  , Hosts :=
      [ "localhost"
      , k ++ "-" ++ cn
      , k ++ "-" ++ cn ++ "." ++ ns
      , k ++ "-" ++ cn ++ "." ++ ns ++ ".svc.cluster.local" ]
  , Key := { Algo := "rsa", Size := 2048 }
  , Names := [{ O := "autogenerated", OU := "elasticsearch cluster", L := "operator"
              , C := "", ST := "" }] }

/-- The literal map of `generateConfig`'s loop, as written in the source:
identity name to descriptor filename.  (Go map iteration order is
unspecified; the properties proved below either hold for every order or
concern the set of entries only.) -/
def reqCSRFiles : List (String × String) :=
  [ ("node", "req-node-csr.json")
  , ("sgadmin", "req-sgadmin-csr.json")
  , ("kibana", "req-kibana-csr.json")
  , ("cerebro", "req-cerebro-csr.json") ]

/-- The (path, document) pairs written by `generateConfig`, in order:
`ca-config.json`, `ca-csr.json`, then one `req-<k>-csr.json` per leaf
identity (paths come from `fmt.Sprintf("%s/%s", configDir, v)`). -/
def configDocs (configDir ns cn : String) : List (String × Doc) :=
  (configDir ++ "/ca-config.json", Doc.config caConfigDoc) ::
  (configDir ++ "/ca-csr.json", Doc.request (caCSR ns cn)) ::
  reqCSRFiles.map (fun p => (configDir ++ "/" ++ p.2, Doc.request (leafCSR p.1 ns cn)))

/-- An external command: the binary name and the exact argument list the
source builds for `exec.Command`. -/
structure Cmd where
  tool : String
  args : List String
deriving DecidableEq, Repr

/-- Command `cmdCA1` of `GenerateCerts`: self-sign the CA CSR. -/
def cmdCA1 (configDir : String) : Cmd :=
  ⟨"cfssl", ["gencert", "-initca", configDir ++ "/ca-csr.json"]⟩

/-- Command `cmdCA2` of `GenerateCerts`: split the CA output into files. -/
def cmdCA2 (certsDir : String) : Cmd :=
  ⟨"cfssljson", ["-bare", certsDir ++ "/ca"]⟩

/-- Command `cmd1` of `GenerateCerts`'s leaf loop: sign the leaf CSR of
identity `name` against the CA. -/
def cmdLeaf1 (configDir certsDir name : String) : Cmd :=
  ⟨"cfssl",
    [ "gencert"
    , "-ca", certsDir ++ "/ca.pem"
    , "-ca-key", certsDir ++ "/ca-key.pem"
    , "-config", configDir ++ "/ca-config.json"
    , "-profile=server"
    , configDir ++ "/req-" ++ name ++ "-csr.json" ]⟩

/-- Command `cmd2` of `GenerateCerts`'s leaf loop: split the leaf output
into files named for the identity. -/
def cmdLeaf2 (certsDir name : String) : Cmd :=
  ⟨"cfssljson", ["-bare", certsDir ++ "/" ++ name]⟩

/-- Command `cmdConvertNodePkcs8`: re-encode the node key as PKCS8. -/
def cmdConvertNodePkcs8 (certsDir : String) : Cmd :=
  ⟨"openssl",
    [ "pkcs8", "-topk8"
    , "-in", certsDir ++ "/node-key.pem"
    , "-out", certsDir ++ "/node-key.pkcs8.pem"
    , "-nocrypt" ]⟩

/-- Command `cmdConvertSgadmin`: export the sgadmin pair as PKCS12. -/
def cmdConvertSgadmin (certsDir : String) : Cmd :=
  ⟨"openssl",
    [ "pkcs12", "-export"
    , "-inkey", certsDir ++ "/sgadmin-key.pem"
    , "-in", certsDir ++ "/sgadmin.pem"
    , "-out", certsDir ++ "/sgadmin.pkcs12"
    , "-password", "pass:changeit"
    , "-certfile", certsDir ++ "/ca.pem" ]⟩

/-- Command `cmdConvertNode`: export the node pair as PKCS12. -/
def cmdConvertNode (certsDir : String) : Cmd :=
  ⟨"openssl",
    [ "pkcs12", "-export"
    , "-inkey", certsDir ++ "/node-key.pem"
    , "-in", certsDir ++ "/node.pem"
    , "-out", certsDir ++ "/node.pkcs12"
    , "-password", "pass:changeit"
    , "-certfile", certsDir ++ "/ca.pem" ]⟩

/-- Command `cmdCAJKS`: import the CA certificate into the JKS trust
store. -/
def cmdCAJKS (certsDir : String) : Cmd :=
  ⟨"keytool",
    [ "-import"
    , "-file", certsDir ++ "/ca.pem"
    , "-alias", "root-ca"
    , "-keystore", certsDir ++ "/truststore.jks"
    , "-storepass", "changeit"
    , "-srcstoretype", "pkcs12"
    , "-noprompt" ]⟩

/-- Command `cmdSgadminJKS`: move the sgadmin PKCS12 entry into a JKS
keystore. -/
def cmdSgadminJKS (certsDir : String) : Cmd :=
  ⟨"keytool",
    [ "-importkeystore"
    , "-srckeystore", certsDir ++ "/sgadmin.pkcs12"
    , "-srcalias", "1"
    , "-destkeystore", certsDir ++ "/sgadmin-keystore.jks"
    , "-storepass", "changeit"
    , "-srcstoretype", "pkcs12"
    , "-srcstorepass", "changeit"
    , "-destalias", "elasticsearch-admin" ]⟩

/-- Command `cmdNodeJKS`: move the node PKCS12 entry into a JKS
keystore. -/
def cmdNodeJKS (certsDir : String) : Cmd :=
  ⟨"keytool",
    [ "-importkeystore"
    , "-srckeystore", certsDir ++ "/node.pkcs12"
    , "-srcalias", "1"
    , "-destkeystore", certsDir ++ "/node-keystore.jks"
    , "-storepass", "changeit"
    , "-srcstoretype", "pkcs12"
    , "-srcstorepass", "changeit"
    , "-destalias", "elasticsearch-node" ]⟩

/-- One step executed by `GenerateCerts`.  `convert` carries the subject of
the conversion, taken from the adjacent `logrus.Info` message in the
source ("node", "sgadmin" or "ca"). -/
inductive Step where
  | clean (dir : String)
  | writeDoc (path : String) (doc : Doc)
  | issueCA (c1 c2 : Cmd)
  | issueLeaf (name : String) (c1 c2 : Cmd)
  | convert (subject : String) (c : Cmd)
deriving DecidableEq, Repr

/-- Effect environment for a `GenerateCerts` run: the outcome of each
`cleanUp` call, of each descriptor-file create+write, of each
`pipeCommands` call, and of each `cmd.Output()` call. -/
structure Env where
  clean : String → Except String Unit
  write : String → Except String Unit
  pipe : Cmd → Cmd → Except String String
  out : Cmd → Except String String

/-- Write the given documents in order, stopping at the first error, as
`generateConfig` does (each entry is one `os.Create` + `Write`, whose
error aborts the function).  Also returns the steps attempted. -/
def writeDocs (w : String → Except String Unit) :
    List (String × Doc) → Except String Unit × List Step
  | [] => (.ok (), [])
  | (p, d) :: rest =>
    match w p with
    | .error e => (.error e, [Step.writeDoc p d])
    | .ok _ =>
      let r := writeDocs w rest
      (r.1, Step.writeDoc p d :: r.2)

/-- The embedding of `generateConfig`: write the policy document, the CA
CSR, and the four leaf CSRs under `configDir`. -/
def generateConfigRun (env : Env) (configDir ns cn : String) :
    Except String Unit × List Step :=
  writeDocs env.write (configDocs configDir ns cn)

/-- The order of `GenerateCerts`'s leaf-issuance loop. -/
def leafLoopNames : List String := ["node", "kibana", "cerebro", "sgadmin"]

/-- The leaf-issuance loop of `GenerateCerts`: one `pipeCommands` call per
identity, stopping at the first error. -/
def issueLeaves (env : Env) (configDir certsDir : String) :
    List String → Except String Unit × List Step
  | [] => (.ok (), [])
  | n :: rest =>
    let s := Step.issueLeaf n (cmdLeaf1 configDir certsDir n) (cmdLeaf2 certsDir n)
    match env.pipe (cmdLeaf1 configDir certsDir n) (cmdLeaf2 certsDir n) with
    | .error e => (.error e, [s])
    | .ok _ =>
      let r := issueLeaves env configDir certsDir rest
      (r.1, s :: r.2)

/-- The six conversion commands of `GenerateCerts`, in source order, each
with its subject. -/
def conversionCmds (certsDir : String) : List (String × Cmd) :=
  [ ("node", cmdConvertNodePkcs8 certsDir)
  , ("sgadmin", cmdConvertSgadmin certsDir)
  , ("node", cmdConvertNode certsDir)
  , ("ca", cmdCAJKS certsDir)
  , ("sgadmin", cmdSgadminJKS certsDir)
  , ("node", cmdNodeJKS certsDir) ]

/-- The conversion block of `GenerateCerts`: run each conversion command
through `cmd.Output()`, stopping at the first error. -/
def runConversions (env : Env) :
    List (String × Cmd) → Except String Unit × List Step
  | [] => (.ok (), [])
  | (subj, c) :: rest =>
    match env.out c with
    | .error e => (.error e, [Step.convert subj c])
    | .ok _ =>
      let r := runConversions env rest
      (r.1, Step.convert subj c :: r.2)

/-- The embedding of `GenerateCerts`: clean both directories, generate
the config, issue the CA, issue the four leaves, then run the six
conversions, propagating the first error of every stage after cleanup.
Returns the result together with the trace of steps attempted, in order.
The source DISCARDS the results of its two `cleanUp` calls (`cleanUp` is
invoked as a bare statement, its error return unchecked), so the outcome
below never consults `env.clean`; the two `Step.clean` entries at the
head of the trace record that the calls are made. -/
def GenerateCertsRun (env : Env) (configDir certsDir ns cn : String) :
    Except String Unit × List Step :=
  match (generateConfigRun env configDir ns cn).1 with
  | .error e =>
      (.error e, Step.clean certsDir :: Step.clean configDir ::
        (generateConfigRun env configDir ns cn).2)
  | .ok _ =>
    match env.pipe (cmdCA1 configDir) (cmdCA2 certsDir) with
    | .error e =>
        (.error e, Step.clean certsDir :: Step.clean configDir ::
          ((generateConfigRun env configDir ns cn).2 ++
            [Step.issueCA (cmdCA1 configDir) (cmdCA2 certsDir)]))
    | .ok _ =>
      match (issueLeaves env configDir certsDir leafLoopNames).1 with
      | .error e =>
          (.error e, Step.clean certsDir :: Step.clean configDir ::
            ((generateConfigRun env configDir ns cn).2 ++
              Step.issueCA (cmdCA1 configDir) (cmdCA2 certsDir) ::
                (issueLeaves env configDir certsDir leafLoopNames).2))
      | .ok _ =>
          ((runConversions env (conversionCmds certsDir)).1,
            Step.clean certsDir :: Step.clean configDir ::
              ((generateConfigRun env configDir ns cn).2 ++
                Step.issueCA (cmdCA1 configDir) (cmdCA2 certsDir) ::
                  ((issueLeaves env configDir certsDir leafLoopNames).2 ++
                    (runConversions env (conversionCmds certsDir)).2)))

/-- The environment in which every effect succeeds. -/
def okEnv : Env :=
  { clean := fun _ => .ok ()
  , write := fun _ => .ok ()
  , pipe := fun _ _ => .ok ""
  , out := fun _ => .ok "" }

/-- The trace of a fully successful `GenerateCerts` run. -/
def fullTrace (configDir certsDir ns cn : String) : List Step :=
  (GenerateCertsRun okEnv configDir certsDir ns cn).2


/-- The fourteen artifact names of the secret's `Data` map, in the order
of the Go map literal in `CreateCertsSecret`. -/
def certsSecretKeys : List String :=
  [ "node-keystore.jks", "sgadmin-keystore.jks", "truststore.jks"
  , "ca.pem", "ca-key.pem"
  , "node.pem", "node-key.pem", "node-key.pkcs8.pem"
  , "sgadmin.pem", "sgadmin-key.pem"
  , "kibana-key.pem", "kibana.pem", "cerebro-key.pem", "cerebro.pem" ]

/-- A best-effort read in `CreateCertsSecret`: `ioutil.ReadFile` with the
error ignored yields nil (empty) content on failure.
(`fmt.Sprintf("%s/x", d)` is the concatenation `d ++ "/" ++ "x"`.) -/
def readOrEmpty (fs : String → Option String) (certsDir nm : String) : String :=
  (fs (certsDir ++ "/" ++ nm)).getD ""

/-- The `Data` map literal of the secret built by `CreateCertsSecret`,
given the two successfully read keystores; the other twelve artifacts are
read best-effort. -/
def bundleContents (fs : String → Option String) (certsDir nodeKeyStore sgadminKeyStore : String) :
    List (String × String) :=
  [ ("node-keystore.jks", nodeKeyStore)
  , ("sgadmin-keystore.jks", sgadminKeyStore)
  , ("truststore.jks", readOrEmpty fs certsDir "truststore.jks")
  , ("ca.pem", readOrEmpty fs certsDir "ca.pem")
  , ("ca-key.pem", readOrEmpty fs certsDir "ca-key.pem")
  , ("node.pem", readOrEmpty fs certsDir "node.pem")
  , ("node-key.pem", readOrEmpty fs certsDir "node-key.pem")
  , ("node-key.pkcs8.pem", readOrEmpty fs certsDir "node-key.pkcs8.pem")
  , ("sgadmin.pem", readOrEmpty fs certsDir "sgadmin.pem")
  , ("sgadmin-key.pem", readOrEmpty fs certsDir "sgadmin-key.pem")
  , ("kibana-key.pem", readOrEmpty fs certsDir "kibana-key.pem")
  , ("kibana.pem", readOrEmpty fs certsDir "kibana.pem")
  , ("cerebro-key.pem", readOrEmpty fs certsDir "cerebro-key.pem")
  , ("cerebro.pem", readOrEmpty fs certsDir "cerebro.pem") ]

/-- The embedding of `CreateCertsSecret` up to the external-store
boundary: read `node-keystore.jks` and `sgadmin-keystore.jks`, failing on
either, then read the remaining twelve artifacts best-effort, and
assemble the fourteen-entry bundle in the order of the Go map literal. -/
def CreateCertsSecret (fs : String → Option String) (certsDir : String) :
    Except String (List (String × String)) :=
  match fs (certsDir ++ "/" ++ "node-keystore.jks") with
  | none => .error "Could not read certs: node-keystore.jks"
  | some nodeKeyStore =>
    match fs (certsDir ++ "/" ++ "sgadmin-keystore.jks") with
    | none => .error "Could not read certs: sgadmin-keystore.jks"
    | some sgadminKeyStore =>
      .ok (bundleContents fs certsDir nodeKeyStore sgadminKeyStore)

/-- One `os.RemoveAll(filepath.Join(dir, name))` call of `cleanUp`'s loop
over a directory's entry list: every occurrence of the name disappears
(removal is fault-free in this model). -/
def removeEntry (entries : List String) (nm : String) : List String :=
  entries.filter (fun x => x != nm)

/-- The embedding of `cleanUp` over a one-directory filesystem: `none`
means `os.Open(dir)` fails; otherwise `Readdirnames(-1)` returns the
entry list and the loop removes each returned name in turn. -/
def cleanUp : Option (List String) → Except String (Option (List String))
  | none => .error "open failed"
  | some entries => .ok (some (entries.foldl removeEntry entries))

/-- Behaviour of one `exec.Cmd` in a `pipeCommands` call: the result of
`StdoutPipe()`, the result of `Start()` and the result of `Output()`. -/
structure CmdBehavior where
  stdoutPipe : Except String Unit
  start : Except String Unit
  output : Except String String
deriving Repr

/-- The wiring loop of `pipeCommands` over the non-final commands: return
the first `StdoutPipe` error; the result of `command.Start()` is
evaluated and DISCARDED, exactly as in the source. -/
def pipeInit : List CmdBehavior → Option String
  | [] => none
  | c :: rest =>
    match c.stdoutPipe with
    | .error e => some e
    | .ok _ =>
      let _started := c.start
      pipeInit rest

/-- Replace a command's `Start()` behaviour, leaving its `StdoutPipe()`
and `Output()` behaviours unchanged (used to state that `pipeCommands`
never consults the `Start()` results). -/
def setStart (f : CmdBehavior → Except String Unit) (b : CmdBehavior) : CmdBehavior :=
  { b with start := f b }

/-- The embedding of `pipeCommands`: on an empty command list the Go
slice expression `commands[:len(commands)-1]` panics (slice bound -1), so
the result is `none`; otherwise wire up the non-final commands and return
the final command's `Output()` (`commands[len(commands)-1]`, i.e. the
last element, written with `getLastD` whose default is unreachable on a
nonempty list). -/
def pipeCommands (cmds : List CmdBehavior) : Option (Except String String) :=
  match cmds with
  | [] => none
  | c :: rest =>
    match pipeInit ((c :: rest).dropLast) with
    | some e => some (.error e)
    | none => some (((c :: rest).getLastD c).output)

/-- The commands a step launches. -/
def stepCmds : Step → List Cmd
  | .clean _ => []
  | .writeDoc _ _ => []
  | .issueCA c1 c2 => [c1, c2]
  | .issueLeaf _ c1 c2 => [c1, c2]
  | .convert _ c => [c]

/-- The password arguments of a command, read off the invocation shapes
present in the source: the argument after `-password` (openssl PKCS12
pass-phrase syntax `pass:...`, with that prefix stripped) and the
arguments after `-storepass` and `-srcstorepass` (keytool). -/
def cmdPasswords : Cmd → List String
  | ⟨"openssl", ["pkcs12", "-export", "-inkey", _, "-in", _, "-out", _,
      "-password", pw, "-certfile", _]⟩ =>
      [if "pass:".data.isPrefixOf pw.data then pw.drop 5 else pw]
  | ⟨"keytool", ["-import", "-file", _, "-alias", _, "-keystore", _,
      "-storepass", sp, "-srcstoretype", _, "-noprompt"]⟩ => [sp]
  | ⟨"keytool", ["-importkeystore", "-srckeystore", _, "-srcalias", _,
      "-destkeystore", _, "-storepass", sp, "-srcstoretype", _,
      "-srcstorepass", ssp, "-destalias", _]⟩ => [sp, ssp]
  | _ => []

/-- The password arguments of all commands a step launches. -/
def stepPasswords (s : Step) : List String :=
  (stepCmds s).flatMap cmdPasswords

/-- Modelled from the spec: the files produced by one external
invocation, read off the invocation shapes of the source per the external
process contracts of spec sections 4.4 and 6 — `cfssljson -bare p` splits
its input into `p.pem` and `p-key.pem`, and the openssl and keytool
invocations create the file named by their `-out`, `-keystore` or
`-destkeystore` argument.  (The external tools themselves are not part of
this repository.) -/
def cmdOutputs : Cmd → List String
  | ⟨"cfssljson", ["-bare", p]⟩ => [p ++ ".pem", p ++ "-key.pem"]
  | ⟨"openssl", ["pkcs8", "-topk8", "-in", _, "-out", o, "-nocrypt"]⟩ => [o]
  | ⟨"openssl", ["pkcs12", "-export", "-inkey", _, "-in", _, "-out", o,
      "-password", _, "-certfile", _]⟩ => [o]
  | ⟨"keytool", ["-import", "-file", _, "-alias", _, "-keystore", o,
      "-storepass", _, "-srcstoretype", _, "-noprompt"]⟩ => [o]
  | ⟨"keytool", ["-importkeystore", "-srckeystore", _, "-srcalias", _,
      "-destkeystore", o, "-storepass", _, "-srcstoretype", _,
      "-srcstorepass", _, "-destalias", _]⟩ => [o]
  | _ => []

/-- The files a step produces: the descriptor file it writes, or the
outputs of the commands it launches. -/
def stepOutputs : Step → List String
  | .writeDoc p _ => [p]
  | s => (stepCmds s).flatMap cmdOutputs

/-- Whether a command is an `openssl pkcs8` conversion. -/
def Cmd.isPkcs8 : Cmd → Bool
  | ⟨"openssl", "pkcs8" :: _⟩ => true
  | _ => false

/-- Whether a command is an `openssl pkcs12` export. -/
def Cmd.isPkcs12 : Cmd → Bool
  | ⟨"openssl", "pkcs12" :: _⟩ => true
  | _ => false

/-- Whether a command is a `keytool -importkeystore` keystore creation. -/
def Cmd.isImportKeystore : Cmd → Bool
  | ⟨"keytool", "-importkeystore" :: _⟩ => true
  | _ => false

/-- Whether a command is any keytool invocation. -/
def Cmd.isKeytool : Cmd → Bool
  | ⟨"keytool", _⟩ => true
  | _ => false

/-- The leaf identity a step issues, if any. -/
def leafNameAt : Step → Option String
  | .issueLeaf n _ _ => some n
  | _ => none

/-- The subject a step converts, if any. -/
def convertSubjectAt : Step → Option String
  | .convert subj _ => some subj
  | _ => none

/-- Whether a step is one of the two initial `cleanUp` calls. -/
def Step.isClean : Step → Bool
  | .clean _ => true
  | _ => false

/-- Whether a step writes a descriptor file (config generation). -/
def Step.isWrite : Step → Bool
  | .writeDoc _ _ => true
  | _ => false

/-- Whether a step is the CA issuance. -/
def Step.isCA : Step → Bool
  | .issueCA _ _ => true
  | _ => false

/-- Whether a step is a leaf issuance. -/
def Step.isLeaf : Step → Bool
  | .issueLeaf _ _ _ => true
  | _ => false

/-- Whether a step is a format conversion. -/
def Step.isConvert : Step → Bool
  | .convert _ _ => true
  | _ => false

end K8sutil

namespace K8sutil

/-- Every step of `tr` satisfying `p` comes strictly before every step
satisfying `q`. -/
def precedes (tr : List Step) (p q : Step → Bool) : Prop :=
  ∀ i j (h1 : i < tr.length) (h2 : j < tr.length),
    p (tr.get ⟨i, h1⟩) = true → q (tr.get ⟨j, h2⟩) = true → i < j

/-- Environment in which both `cleanUp` calls fail and everything else
succeeds. -/
def cleanFailEnv : Env :=
  { clean := fun _ => .error "cleanup failed"
  , write := fun _ => .ok ()
  , pipe := fun _ _ => .ok ""
  , out := fun _ => .ok "" }

/-- Environment in which writing `ca-csr.json` under the `cfg` directory
fails and everything else succeeds. -/
def writeFailEnv : Env :=
  { clean := fun _ => .ok ()
  , write := fun p => if p = "cfg" ++ "/ca-csr.json" then .error "disk full" else .ok ()
  , pipe := fun _ _ => .ok ""
  , out := fun _ => .ok "" }

/-- A command whose `Start()` fails but is otherwise healthy. -/
def startFailCmd : CmdBehavior :=
  { stdoutPipe := .ok (), start := .error "start: executable not found"
  , output := .ok "" }

/-- A command that succeeds throughout, producing some final output. -/
def finalOkCmd : CmdBehavior :=
  { stdoutPipe := .ok (), start := .ok (), output := .ok "final output" }

/-- A command whose `StdoutPipe()` fails. -/
def pipeFailCmd : CmdBehavior :=
  { stdoutPipe := .error "pipe creation failed", start := .ok ()
  , output := .ok "" }

/-- A command whose `Output()` fails (non-zero exit). -/
def outFailCmd : CmdBehavior :=
  { stdoutPipe := .ok (), start := .ok (), output := .error "exit status 1" }

/-- A filesystem with no readable files at all. -/
def fsAbsent : String → Option String := fun _ => none

/-- A filesystem holding exactly the two required keystores under the
directory `certs`. -/
def fsTwoKeystores : String → Option String := fun p =>
  if p = "certs" ++ "/" ++ "node-keystore.jks" then some "NODEKS"
  else if p = "certs" ++ "/" ++ "sgadmin-keystore.jks" then some "ADMINKS"
  else none

/-- The successful trace, written out: the two cleanups, the six
descriptor writes, CA issuance, the four leaf issuances, and the six
conversions, in that order. -/
theorem fullTrace_eq (configDir certsDir ns cn : String) :
    fullTrace configDir certsDir ns cn =
      [ Step.clean certsDir
      , Step.clean configDir
      , Step.writeDoc (configDir ++ "/ca-config.json") (Doc.config caConfigDoc)
      , Step.writeDoc (configDir ++ "/ca-csr.json") (Doc.request (caCSR ns cn))
      , Step.writeDoc (configDir ++ "/" ++ "req-node-csr.json")
          (Doc.request (leafCSR "node" ns cn))
      , Step.writeDoc (configDir ++ "/" ++ "req-sgadmin-csr.json")
          (Doc.request (leafCSR "sgadmin" ns cn))
      , Step.writeDoc (configDir ++ "/" ++ "req-kibana-csr.json")
          (Doc.request (leafCSR "kibana" ns cn))
      , Step.writeDoc (configDir ++ "/" ++ "req-cerebro-csr.json")
          (Doc.request (leafCSR "cerebro" ns cn))
      , Step.issueCA (cmdCA1 configDir) (cmdCA2 certsDir)
      , Step.issueLeaf "node" (cmdLeaf1 configDir certsDir "node")
          (cmdLeaf2 certsDir "node")
      , Step.issueLeaf "kibana" (cmdLeaf1 configDir certsDir "kibana")
          (cmdLeaf2 certsDir "kibana")
      , Step.issueLeaf "cerebro" (cmdLeaf1 configDir certsDir "cerebro")
          (cmdLeaf2 certsDir "cerebro")
      , Step.issueLeaf "sgadmin" (cmdLeaf1 configDir certsDir "sgadmin")
          (cmdLeaf2 certsDir "sgadmin")
      , Step.convert "node" (cmdConvertNodePkcs8 certsDir)
      , Step.convert "sgadmin" (cmdConvertSgadmin certsDir)
      , Step.convert "node" (cmdConvertNode certsDir)
      , Step.convert "ca" (cmdCAJKS certsDir)
      , Step.convert "sgadmin" (cmdSgadminJKS certsDir)
      , Step.convert "node" (cmdNodeJKS certsDir) ] := rfl

/-- C1: for every namespace and cluster name and each leaf identity among
node, sgadmin, kibana, cerebro, the CSR descriptor written by
`generateConfig` for that identity has hosts exactly
`["localhost", I-cluster, I-cluster.ns, I-cluster.ns.svc.cluster.local]`
in that order. -/
theorem generateConfig_leaf_hosts (configDir ns cn ident : String)
    (h : ident ∈ ["node", "sgadmin", "kibana", "cerebro"]) :
    (∃ p, (p, Doc.request (leafCSR ident ns cn)) ∈ configDocs configDir ns cn) ∧
    (∀ p r, (p, Doc.request r) ∈ configDocs configDir ns cn → r.CN = some ident →
        r.Hosts = [ "localhost"
                  , ident ++ "-" ++ cn
                  , ident ++ "-" ++ cn ++ "." ++ ns
                  , ident ++ "-" ++ cn ++ "." ++ ns ++ ".svc.cluster.local" ]) ∧
    (leafCSR ident ns cn).Hosts
      = [ "localhost"
        , ident ++ "-" ++ cn
        , ident ++ "-" ++ cn ++ "." ++ ns
        , ident ++ "-" ++ cn ++ "." ++ ns ++ ".svc.cluster.local" ] := by
  refine ⟨?_, ?_, rfl⟩
  · fin_cases h
    · exact ⟨configDir ++ "/" ++ "req-node-csr.json", by simp [configDocs, reqCSRFiles]⟩
    · exact ⟨configDir ++ "/" ++ "req-sgadmin-csr.json", by simp [configDocs, reqCSRFiles]⟩
    · exact ⟨configDir ++ "/" ++ "req-kibana-csr.json", by simp [configDocs, reqCSRFiles]⟩
    · exact ⟨configDir ++ "/" ++ "req-cerebro-csr.json", by simp [configDocs, reqCSRFiles]⟩
  · intro p r hmem hcn
    simp [configDocs, reqCSRFiles, caCSR] at hmem
    rcases hmem with ⟨hp, hr⟩ | ⟨hp, hr⟩ | ⟨hp, hr⟩ | ⟨hp, hr⟩ | ⟨hp, hr⟩ <;>
      subst hr <;> simp_all [leafCSR]

/-- C1 witness: instance of `generateConfig_leaf_hosts` at a concrete
namespace, cluster name and identity. -/
theorem generateConfig_leaf_hosts_witness :
    (leafCSR "kibana" "logging" "prod").Hosts
      = [ "localhost", "kibana-prod", "kibana-prod.logging"
        , "kibana-prod.logging.svc.cluster.local" ] := by
  have h := (generateConfig_leaf_hosts "cfg" "logging" "prod" "kibana" (by decide)).2.2
  simpa using h

/-- C8: the signing-policy document written by `generateConfig` has usages
exactly signing, key encipherment, server auth, client auth and expiry
8760h, and every descriptor written (CA and the four leaves) uses key
algorithm rsa with size 2048. -/
theorem generateConfig_policy_and_keys (configDir ns cn : String) :
    (∀ p c, (p, Doc.config c) ∈ configDocs configDir ns cn →
        c.Signing.Default.Usages
          = ["signing", "key encipherment", "server auth", "client auth"] ∧
        c.Signing.Default.Expiry = "8760h") ∧
    ((configDir ++ "/ca-config.json", Doc.config caConfigDoc)
        ∈ configDocs configDir ns cn) ∧
    (∀ p r, (p, Doc.request r) ∈ configDocs configDir ns cn →
        r.Key.Algo = "rsa" ∧ r.Key.Size = 2048) := by
  refine ⟨?_, by simp [configDocs], ?_⟩
  · intro p c hmem
    simp [configDocs, reqCSRFiles] at hmem
    rcases hmem with ⟨hp, hc⟩
    subst hc
    exact ⟨rfl, rfl⟩
  · intro p r hmem
    simp [configDocs, reqCSRFiles] at hmem
    rcases hmem with ⟨hp, hr⟩ | ⟨hp, hr⟩ | ⟨hp, hr⟩ | ⟨hp, hr⟩ | ⟨hp, hr⟩ <;>
      subst hr <;> exact ⟨rfl, rfl⟩

/-- C8 witness: instance of `generateConfig_policy_and_keys` at concrete
inputs. -/
theorem generateConfig_policy_and_keys_witness :
    caConfigDoc.Signing.Default.Usages
      = ["signing", "key encipherment", "server auth", "client auth"] ∧
    caConfigDoc.Signing.Default.Expiry = "8760h" ∧
    (caCSR "logging" "prod").Key.Algo = "rsa" ∧
    (caCSR "logging" "prod").Key.Size = 2048 := by
  have h := generateConfig_policy_and_keys "cfg" "logging" "prod"
  have h1 := h.1 ("cfg" ++ "/ca-config.json") caConfigDoc h.2.1
  have h2 := h.2.2 ("cfg" ++ "/ca-csr.json") (caCSR "logging" "prod")
    (by simp [configDocs])
  exact ⟨h1.1, h1.2, h2.1, h2.2⟩

end K8sutil

namespace K8sutil

/-- Two appended strings differ when neither fixed tail is a suffix of the
other, whatever the prefixes are. -/
theorem append_ne_append {s t : String} (x y : String)
    (hs : ¬ s.data <:+ t.data) (ht : ¬ t.data <:+ s.data) :
    x ++ s ≠ y ++ t := by
  intro h
  have hd : x.data ++ s.data = y.data ++ t.data := by
    have := congrArg String.data h
    simpa [String.data_append] using this
  have h1 : s.data <:+ (y.data ++ t.data) := hd ▸ List.suffix_append x.data s.data
  have h2 : t.data <:+ (y.data ++ t.data) := List.suffix_append y.data t.data
  rcases List.suffix_or_suffix_of_suffix h1 h2 with h3 | h3
  · exact hs h3
  · exact ht h3

/-- Reassociate an appended literal: `x ++ s ++ t = x ++ u` when
`s ++ t = u`. -/
theorem append_append_eq (x : String) {s t u : String} (h : s ++ t = u) :
    x ++ s ++ t = x ++ u := by
  rw [String.append_assoc, h]

/-- Scan deciding that every `p` step of a trace comes strictly before
every `q` step. -/
def stepsBefore (p q : Step → Bool) : List Step → Bool
  | [] => true
  | s :: rest =>
    (if q s then !p s && rest.all (fun x => !p x) else true) && stepsBefore p q rest

/-- Soundness of the `stepsBefore` scan: it implies the index ordering. -/
theorem stepsBefore_spec (p q : Step → Bool) (tr : List Step)
    (h : stepsBefore p q tr = true) :
    ∀ i j (h1 : i < tr.length) (h2 : j < tr.length),
      p (tr.get ⟨i, h1⟩) = true → q (tr.get ⟨j, h2⟩) = true → i < j := by
  induction tr with
  | nil => intro i j h1 _ _ _; simp at h1
  | cons s rest ih =>
    intro i j h1 h2 hp hq
    rw [stepsBefore, Bool.and_eq_true] at h
    obtain ⟨hhead, htail⟩ := h
    simp only [List.length_cons] at h1 h2
    cases j with
    | zero =>
      have hqs : q s = true := hq
      rw [if_pos hqs, Bool.and_eq_true] at hhead
      obtain ⟨hps, hall⟩ := hhead
      cases i with
      | zero =>
        have hps0 : p s = true := hp
        simp [hps0] at hps
      | succ il =>
        have hil : il < rest.length := by omega
        have hp2 : p (rest.get ⟨il, hil⟩) = true := hp
        have h3 : (!p (rest.get ⟨il, hil⟩)) = true :=
          List.all_eq_true.mp hall _ (List.get_mem rest il hil)
        rw [hp2] at h3
        exact absurd h3 (by decide)
    | succ jl =>
      cases i with
      | zero => omega
      | succ il =>
        have hil : il < rest.length := by omega
        have hjl : jl < rest.length := by omega
        have hp2 : p (rest.get ⟨il, hil⟩) = true := hp
        have hq2 : q (rest.get ⟨jl, hjl⟩) = true := hq
        have := ih htail il jl hil hjl hp2 hq2
        omega

/-- When `writeDocs` succeeds, every document was written, in order. -/
theorem writeDocs_ok_trace (w : String → Except String Unit)
    (docs : List (String × Doc)) (h : (writeDocs w docs).1 = .ok ()) :
    (writeDocs w docs).2 = docs.map (fun pd => Step.writeDoc pd.1 pd.2) := by
  induction docs with
  | nil => rfl
  | cons pd rest ih =>
    obtain ⟨p, d⟩ := pd
    rw [writeDocs] at h ⊢
    revert h
    cases hw : w p with
    | error e => intro h; simp at h
    | ok u =>
      intro h
      show Step.writeDoc p d :: (writeDocs w rest).2 = _
      have h2 : (writeDocs w rest).1 = .ok () := h
      rw [List.map_cons, ih h2]

/-- When the leaf loop succeeds, every leaf was issued, in order. -/
theorem issueLeaves_ok_trace (env : Env) (configDir certsDir : String)
    (nms : List String) (h : (issueLeaves env configDir certsDir nms).1 = .ok ()) :
    (issueLeaves env configDir certsDir nms).2 =
      nms.map (fun n =>
        Step.issueLeaf n (cmdLeaf1 configDir certsDir n) (cmdLeaf2 certsDir n)) := by
  induction nms with
  | nil => rfl
  | cons n rest ih =>
    rw [issueLeaves] at h ⊢
    revert h
    cases hw : env.pipe (cmdLeaf1 configDir certsDir n) (cmdLeaf2 certsDir n) with
    | error e => intro h; simp at h
    | ok u =>
      intro h
      show Step.issueLeaf n _ _ :: (issueLeaves env configDir certsDir rest).2 = _
      have h2 : (issueLeaves env configDir certsDir rest).1 = .ok () := h
      rw [List.map_cons, ih h2]

/-- When the conversion block succeeds, every conversion ran, in order. -/
theorem runConversions_ok_trace (env : Env) (l : List (String × Cmd))
    (h : (runConversions env l).1 = .ok ()) :
    (runConversions env l).2 = l.map (fun pc => Step.convert pc.1 pc.2) := by
  induction l with
  | nil => rfl
  | cons pc rest ih =>
    obtain ⟨subj, c⟩ := pc
    rw [runConversions] at h ⊢
    revert h
    cases hw : env.out c with
    | error e => intro h; simp at h
    | ok u =>
      intro h
      show Step.convert subj c :: (runConversions env rest).2 = _
      have h2 : (runConversions env rest).1 = .ok () := h
      rw [List.map_cons, ih h2]

/-- A successful `GenerateCerts` run has the full trace, whatever the
environment. -/
theorem run_ok_trace (env : Env) (configDir certsDir ns cn : String)
    (h : (GenerateCertsRun env configDir certsDir ns cn).1 = .ok ()) :
    (GenerateCertsRun env configDir certsDir ns cn).2 =
      fullTrace configDir certsDir ns cn := by
  rw [GenerateCertsRun] at h ⊢
  revert h
  cases hcfg : (generateConfigRun env configDir ns cn).1 with
  | error e => intro h; simp at h
  | ok u =>
    intro h
    revert h
    cases hp : env.pipe (cmdCA1 configDir) (cmdCA2 certsDir) with
    | error e => intro h; simp at h
    | ok v =>
      intro h
      revert h
      cases hl : (issueLeaves env configDir certsDir leafLoopNames).1 with
      | error e => intro h; simp at h
      | ok w2 =>
        intro h
        have hconv : (runConversions env (conversionCmds certsDir)).1 = .ok () := h
        have e1 : (writeDocs env.write (configDocs configDir ns cn)).1 = .ok () := by
          cases u; exact hcfg
        have e2 := writeDocs_ok_trace env.write (configDocs configDir ns cn) e1
        have e3 := issueLeaves_ok_trace env configDir certsDir leafLoopNames
          (by cases w2; exact hl)
        have e4 := runConversions_ok_trace env (conversionCmds certsDir) hconv
        show Step.clean certsDir :: Step.clean configDir ::
            ((generateConfigRun env configDir ns cn).2 ++
              Step.issueCA (cmdCA1 configDir) (cmdCA2 certsDir) ::
                ((issueLeaves env configDir certsDir leafLoopNames).2 ++
                  (runConversions env (conversionCmds certsDir)).2)) = _
        rw [generateConfigRun, e2, e3, e4, fullTrace_eq]
        simp [configDocs, reqCSRFiles, leafLoopNames, conversionCmds]

end K8sutil

namespace K8sutil

/-- Folding `removeEntry` over names covering the accumulator empties
it. -/
theorem foldl_removeEntry_nil (l : List String) :
    ∀ d : List String, (∀ x ∈ d, x ∈ l) → l.foldl removeEntry d = [] := by
  induction l with
  | nil =>
    intro d h
    cases d with
    | nil => rfl
    | cons a t => exact absurd (h a (by simp)) (by simp)
  | cons a l2 ih =>
    intro d h
    rw [List.foldl_cons]
    apply ih
    intro x hx
    rw [removeEntry, List.mem_filter] at hx
    obtain ⟨hxd, hxa⟩ := hx
    have hmem := h x hxd
    simp only [bne_iff_ne, ne_eq] at hxa
    simp only [List.mem_cons] at hmem
    rcases hmem with rfl | h2
    · exact absurd rfl hxa
    · exact h2

/-- C7: `cleanUp` removes every entry directly under the directory while
leaving the directory itself in place, and running it twice in a row
gives the same outcome as running it once. -/
theorem cleanUp_empties_and_idempotent (entries : List String) :
    cleanUp (some entries) = .ok (some []) ∧
    (∀ d, cleanUp (some entries) = .ok d → cleanUp d = cleanUp (some entries)) := by
  have h1 : cleanUp (some entries) = .ok (some []) := by
    rw [cleanUp, foldl_removeEntry_nil entries entries (fun x hx => hx)]
  refine ⟨h1, ?_⟩
  intro d hd
  rw [h1] at hd
  injection hd with h2
  subst h2
  rw [h1]
  rfl

/-- C7 witness: `cleanUp` on a directory with three entries leaves it
empty, and a second run returns the same result. -/
theorem cleanUp_empties_and_idempotent_witness :
    cleanUp (some ["a.pem", "b.jks", "c"]) = .ok (some []) ∧
    cleanUp (some []) = cleanUp (some ["a.pem", "b.jks", "c"]) :=
  ⟨(cleanUp_empties_and_idempotent ["a.pem", "b.jks", "c"]).1,
   (cleanUp_empties_and_idempotent ["a.pem", "b.jks", "c"]).2 (some [])
     (cleanUp_empties_and_idempotent ["a.pem", "b.jks", "c"]).1⟩

/-- C10: `pipeCommands` on the empty command sequence panics (the Go
slice expression `commands[:len(commands)-1]` faults) rather than
returning an error value, and on a one-element sequence it simply
captures and returns that command's output. -/
theorem pipeCommands_empty_panics_one_output :
    pipeCommands [] = none ∧
    ∀ b : CmdBehavior, pipeCommands [b] = some b.output :=
  ⟨rfl, fun _ => rfl⟩

/-- C4 counterexample: a two-command pipeline in which the first command
fails to start still returns the final command's output successfully, so
failure of a non-final command to start is NOT reported. -/
theorem pipeCommands_start_failure_ignored :
    startFailCmd.start = .error "start: executable not found" ∧
    pipeCommands [startFailCmd, finalOkCmd] = some (.ok "final output") :=
  ⟨rfl, rfl⟩

/-- `pipeInit` never consults the `Start()` results. -/
theorem pipeInit_start_irrelevant (f : CmdBehavior → Except String Unit) :
    ∀ l, pipeInit (l.map (setStart f)) = pipeInit l := by
  intro l
  induction l with
  | nil => rfl
  | cons b rest ih =>
    obtain ⟨sp, st, outp⟩ := b
    cases sp with
    | error e => rfl
    | ok u => simpa [pipeInit, setStart] using ih

/-- `getLastD` commutes with `map` when the defaults correspond. -/
theorem getLastD_map {α β : Type} (g : α → β) :
    ∀ (l : List α) (a : α), (l.map g).getLastD (g a) = g (l.getLastD a) := by
  intro l
  induction l with
  | nil => intro a; rfl
  | cons b t ih =>
    intro a
    rw [List.map_cons, List.getLastD_cons, List.getLastD_cons]
    exact ih b

/-- C4 (amended): `pipeCommands` reports failure when `StdoutPipe` on a
non-final command fails and whenever the final command's `Output()`
fails (covering its non-zero exit, missing output, or failure to start);
the `Start()` results of non-final commands are never consulted, so a
non-final command's failure to start does not by itself cause an
error. -/
theorem pipeCommands_failure_reporting (c : CmdBehavior) (cs : List CmdBehavior) :
    (∀ e, pipeInit ((c :: cs).dropLast) = some e →
        pipeCommands (c :: cs) = some (.error e)) ∧
    (∀ e, ((c :: cs).getLastD c).output = .error e →
        ∃ e2, pipeCommands (c :: cs) = some (.error e2)) ∧
    (∀ f : CmdBehavior → Except String Unit,
        pipeCommands ((c :: cs).map (setStart f)) = pipeCommands (c :: cs)) := by
  refine ⟨?_, ?_, ?_⟩
  · intro e he
    rw [pipeCommands, he]
  · intro e he
    cases hpi : pipeInit ((c :: cs).dropLast) with
    | some e2 => exact ⟨e2, by rw [pipeCommands, hpi]⟩
    | none => exact ⟨e, by rw [pipeCommands, hpi, he]⟩
  · intro f
    rw [List.map_cons, pipeCommands, pipeCommands]
    have h1 : (setStart f c :: cs.map (setStart f)).dropLast
        = ((c :: cs).dropLast).map (setStart f) := by
      rw [← List.map_cons]
      exact (List.map_dropLast _ _).symm
    rw [h1, pipeInit_start_irrelevant]
    cases hpi : pipeInit ((c :: cs).dropLast) with
    | some e => rfl
    | none =>
      have h2 : (setStart f c :: cs.map (setStart f)).getLastD (setStart f c)
          = setStart f ((c :: cs).getLastD c) := by
        rw [← List.map_cons]
        exact getLastD_map _ (c :: cs) c
      rw [h2]
      rfl

/-- C4 witness: instances of `pipeCommands_failure_reporting` — a
`StdoutPipe` failure is reported, and a failing final command makes the
whole pipeline fail. -/
theorem pipeCommands_failure_reporting_witness :
    pipeCommands [pipeFailCmd, finalOkCmd] = some (.error "pipe creation failed") ∧
    (∃ e2, pipeCommands [finalOkCmd, outFailCmd] = some (.error e2)) :=
  ⟨(pipeCommands_failure_reporting pipeFailCmd [finalOkCmd]).1
      "pipe creation failed" rfl,
   (pipeCommands_failure_reporting finalOkCmd [outFailCmd]).2.1
      "exit status 1" rfl⟩

/-- `CreateCertsSecret` fails whenever one of the two required keystores
cannot be read. -/
theorem createCertsSecret_error_of_missing (fs : String → Option String)
    (certsDir : String)
    (h : fs (certsDir ++ "/" ++ "node-keystore.jks") = none ∨
         fs (certsDir ++ "/" ++ "sgadmin-keystore.jks") = none) :
    ∃ e, CreateCertsSecret fs certsDir = .error e := by
  cases hn : fs (certsDir ++ "/" ++ "node-keystore.jks") with
  | none => exact ⟨_, by rw [CreateCertsSecret, hn]⟩
  | some nk =>
    cases hs : fs (certsDir ++ "/" ++ "sgadmin-keystore.jks") with
    | none => exact ⟨_, by rw [CreateCertsSecret, hn, hs]⟩
    | some sk => rcases h with h1 | h1 <;> simp_all

/-- C2: `CreateCertsSecret` fails when either keystore is unreadable;
with both keystores readable it succeeds, the bundle maps exactly the
fourteen fixed artifact names in order, every entry holds the file's
content (empty when the best-effort read failed), and a missing
best-effort artifact appears with empty content. -/
theorem createCertsSecret_required_best_effort (fs : String → Option String)
    (certsDir : String) :
    ((fs (certsDir ++ "/" ++ "node-keystore.jks") = none ∨
      fs (certsDir ++ "/" ++ "sgadmin-keystore.jks") = none) →
      ∃ e, CreateCertsSecret fs certsDir = .error e) ∧
    (∀ nk sk, fs (certsDir ++ "/" ++ "node-keystore.jks") = some nk →
      fs (certsDir ++ "/" ++ "sgadmin-keystore.jks") = some sk →
      ∃ b, CreateCertsSecret fs certsDir = .ok b ∧
        b.map Prod.fst = certsSecretKeys ∧
        (∀ nm content, (nm, content) ∈ b →
          content = (fs (certsDir ++ "/" ++ nm)).getD "") ∧
        (∀ nm, nm ∈ certsSecretKeys → fs (certsDir ++ "/" ++ nm) = none →
          (nm, "") ∈ b)) := by
  refine ⟨createCertsSecret_error_of_missing fs certsDir, ?_⟩
  · intro nk sk hn hs
    refine ⟨bundleContents fs certsDir nk sk,
      by rw [CreateCertsSecret, hn, hs], rfl, ?_, ?_⟩
    · intro nm content hmem
      simp only [bundleContents, List.mem_cons, List.not_mem_nil, or_false,
        Prod.mk.injEq] at hmem
      obtain ⟨rfl, rfl⟩ | hrest := hmem
      · simp [hn]
      obtain ⟨rfl, rfl⟩ | hrest := hrest
      · simp [hs]
      rcases hrest with hce | hce | hce | hce | hce | hce |
          hce | hce | hce | hce | hce | hce <;>
        (obtain ⟨rfl, rfl⟩ := hce; rfl)
    · intro nm hk hmiss
      fin_cases hk <;> first
        | (rw [hn] at hmiss; exact absurd hmiss (by simp))
        | (rw [hs] at hmiss; exact absurd hmiss (by simp))
        | simp [bundleContents, readOrEmpty, hmiss]

/-- C2 witness: with no readable files assembly fails; with exactly the
two keystores readable it succeeds with the fourteen keys, and the
missing `kibana.pem` is present with empty content. -/
theorem createCertsSecret_required_best_effort_witness :
    (∃ e, CreateCertsSecret fsAbsent "certs" = .error e) ∧
    (∃ b, CreateCertsSecret fsTwoKeystores "certs" = .ok b ∧
      b.map Prod.fst = certsSecretKeys ∧ ("kibana.pem", "") ∈ b) := by
  constructor
  · exact (createCertsSecret_required_best_effort fsAbsent "certs").1 (Or.inl rfl)
  · obtain ⟨b, hb, hkeys, _, hempty⟩ :=
      (createCertsSecret_required_best_effort fsTwoKeystores "certs").2
        "NODEKS" "ADMINKS" rfl rfl
    exact ⟨b, hb, hkeys, hempty "kibana.pem" (by decide) rfl⟩

end K8sutil

namespace K8sutil

/-- `writeDocs` returns the first failing write's error and attempts no
later file: when writes before position `j` succeed and the write at `j`
fails, the result is that error and the trace stops at file `j`. -/
theorem writeDocs_first_error (w : String → Except String Unit) :
    ∀ (docs : List (String × Doc)) (j : Nat) (hj : j < docs.length) (e : String),
      (∀ i (hi : i < docs.length), i < j → w (docs.get ⟨i, hi⟩).1 = .ok ()) →
      w (docs.get ⟨j, hj⟩).1 = .error e →
      (writeDocs w docs).1 = .error e ∧
      (writeDocs w docs).2 =
        (docs.take (j + 1)).map (fun pd => Step.writeDoc pd.1 pd.2) := by
  intro docs
  induction docs with
  | nil => intro j hj; simp at hj
  | cons pd rest ih =>
    intro j hj e hok herr
    obtain ⟨p, d⟩ := pd
    cases j with
    | zero =>
      have hwp : w p = .error e := herr
      rw [writeDocs]
      rw [hwp]
      exact ⟨rfl, rfl⟩
    | succ jl =>
      have hwp : w p = .ok () := hok 0 (by simp) (by omega)
      have hjl : jl < rest.length := by
        simp only [List.length_cons] at hj
        omega
      have hok2 : ∀ i (hi : i < rest.length), i < jl →
          w (rest.get ⟨i, hi⟩).1 = .ok () := by
        intro i hi hlt
        have := hok (i + 1) (by simp only [List.length_cons]; omega) (by omega)
        exact this
      have herr2 : w (rest.get ⟨jl, hjl⟩).1 = .error e := herr
      obtain ⟨ha, hb⟩ := ih jl hjl e hok2 herr2
      rw [writeDocs, hwp]
      constructor
      · exact ha
      · show Step.writeDoc p d :: (writeDocs w rest).2 = _
        rw [hb, List.take_succ_cons, List.map_cons]

/-- C3 counterexample: in an environment where both `cleanUp` calls fail
and everything else succeeds, `GenerateCerts` still returns success — a
workspace-cleanup failure is NOT surfaced to its caller. -/
theorem generateCerts_cleanup_error_ignored :
    cleanFailEnv.clean "/certs" = .error "cleanup failed" ∧
    (GenerateCertsRun cleanFailEnv "/config" "/certs" "logging" "prod").1 = .ok () :=
  ⟨rfl, rfl⟩

/-- C3 (amended): `cleanUp` surfaces a directory-open failure to its own
caller as its return value, but `GenerateCerts` discards the results of
its two `cleanUp` calls — its outcome is the same whatever they return;
every later stage returns the first error it encounters and stops: a
descriptor-file write failure in `generateConfig` is returned without
continuing to subsequent files, and a CA-issuance failure is returned
with no leaf issuance or conversion ever attempted. -/
theorem generateCerts_error_propagation (env : Env) (configDir certsDir ns cn : String) :
    (cleanUp none = .error "open failed") ∧
    (∀ f, GenerateCertsRun { env with clean := f } configDir certsDir ns cn =
        GenerateCertsRun env configDir certsDir ns cn) ∧
    (∀ (docs : List (String × Doc)) (j : Nat) (hj : j < docs.length) (e : String),
      (∀ i (hi : i < docs.length), i < j → env.write (docs.get ⟨i, hi⟩).1 = .ok ()) →
      env.write (docs.get ⟨j, hj⟩).1 = .error e →
      (writeDocs env.write docs).1 = .error e ∧
      (writeDocs env.write docs).2 =
        (docs.take (j + 1)).map (fun pd => Step.writeDoc pd.1 pd.2)) ∧
    (∀ e, (generateConfigRun env configDir ns cn).1 = .ok () →
      env.pipe (cmdCA1 configDir) (cmdCA2 certsDir) = .error e →
      (GenerateCertsRun env configDir certsDir ns cn).1 = .error e ∧
      ∀ s ∈ (GenerateCertsRun env configDir certsDir ns cn).2,
        s.isLeaf = false ∧ s.isConvert = false) := by
  refine ⟨rfl, fun f => rfl, writeDocs_first_error env.write, ?_⟩
  intro e hcfg hpipe
  have h1 : GenerateCertsRun env configDir certsDir ns cn =
      (.error e, Step.clean certsDir :: Step.clean configDir ::
        ((generateConfigRun env configDir ns cn).2 ++
          [Step.issueCA (cmdCA1 configDir) (cmdCA2 certsDir)])) := by
    rw [GenerateCertsRun, hcfg, hpipe]
  constructor
  · rw [h1]
  · intro s hs
    have e2 := writeDocs_ok_trace env.write (configDocs configDir ns cn) hcfg
    have hs2 : s ∈ Step.clean certsDir :: Step.clean configDir ::
        ((generateConfigRun env configDir ns cn).2 ++
          [Step.issueCA (cmdCA1 configDir) (cmdCA2 certsDir)]) := by
      rw [h1] at hs
      exact hs
    rw [generateConfigRun, e2] at hs2
    simp only [List.mem_cons, List.mem_append, List.mem_map,
      List.mem_singleton, List.not_mem_nil, or_false] at hs2
    rcases hs2 with rfl | rfl | ⟨pd, hpd, rfl⟩ | rfl <;>
      exact ⟨rfl, rfl⟩

/-- C3 witness: concrete instance — a failing second descriptor write
aborts `generateConfig` with that error after attempting exactly the
first two files. -/
theorem generateCerts_error_propagation_witness :
    (writeDocs writeFailEnv.write (configDocs "cfg" "logging" "prod")).1 =
      .error "disk full" ∧
    (writeDocs writeFailEnv.write (configDocs "cfg" "logging" "prod")).2 =
      [ Step.writeDoc ("cfg" ++ "/ca-config.json") (Doc.config caConfigDoc)
      , Step.writeDoc ("cfg" ++ "/ca-csr.json")
          (Doc.request (caCSR "logging" "prod")) ] := by
  have h := (generateCerts_error_propagation writeFailEnv "cfg" "certs"
      "logging" "prod").2.2.1 (configDocs "cfg" "logging" "prod") 1
      (by simp [configDocs, reqCSRFiles]) "disk full"
      (by
        intro i hi hlt
        have hi0 : i = 0 := by omega
        subst hi0
        rfl)
      rfl
  exact ⟨h.1, by rw [h.2]; rfl⟩

/-- C9: every password argument passed by `GenerateCerts` to its PKCS12
exports and keytool keystore operations is the literal `changeit` — the
successful trace contains exactly seven password arguments, all
`changeit`, independent of every caller-supplied input; per conversion
command the password lists are fixed (the PKCS8 re-encoding takes none,
the two PKCS12 exports and the truststore import take one each, and the
two keystore imports take a store and a source-store password each). -/
theorem generateCerts_fixed_password (configDir certsDir ns cn : String) :
    (fullTrace configDir certsDir ns cn).flatMap stepPasswords =
      ["changeit", "changeit", "changeit", "changeit", "changeit", "changeit",
       "changeit"] ∧
    (conversionCmds certsDir).map (fun pc => cmdPasswords pc.2) =
      [[], ["changeit"], ["changeit"], ["changeit"],
       ["changeit", "changeit"], ["changeit", "changeit"]] :=
  ⟨rfl, rfl⟩

end K8sutil

namespace K8sutil

/-- A step carrying a leaf name is a leaf-issuance step. -/
theorem leafNameAt_isLeaf (s : Step) (nm : String)
    (h : leafNameAt s = some nm) : s.isLeaf = true := by
  cases s <;> simp [leafNameAt, Step.isLeaf] at h ⊢

/-- A step carrying a conversion subject is a conversion step. -/
theorem convertSubjectAt_isConvert (s : Step) (nm : String)
    (h : convertSubjectAt s = some nm) : s.isConvert = true := by
  cases s <;> simp [convertSubjectAt, Step.isConvert] at h ⊢

/-- C5 counterexample: a successful concrete run performs exactly one
PKCS8 conversion and it is the node one — no
`kibana-key.pkcs8.pem`/`cerebro-key.pkcs8.pem` is ever produced, so the
kibana and cerebro identities do NOT get a PKCS8-encoded private key. -/
theorem generateCerts_no_ui_pkcs8 :
    (GenerateCertsRun okEnv "cfg" "certs" "logging" "prod").1 = .ok () ∧
    ((fullTrace "cfg" "certs" "logging" "prod").filter
      (fun s => (stepCmds s).any Cmd.isPkcs8)) =
      [Step.convert "node" (cmdConvertNodePkcs8 "certs")] ∧
    ("certs" ++ "/" ++ "kibana-key.pkcs8.pem") ∉
      (fullTrace "cfg" "certs" "logging" "prod").flatMap stepOutputs ∧
    ("certs" ++ "/" ++ "cerebro-key.pkcs8.pem") ∉
      (fullTrace "cfg" "certs" "logging" "prod").flatMap stepOutputs :=
  ⟨rfl, rfl, by decide, by decide⟩

/-- C5 (amended): a successful `GenerateCerts` run produces the PEM
certificate/key pair for the kibana and cerebro identities but no other
form for them: the only PKCS8 conversion is the node key's, and
PKCS12/keystore conversion steps exist only for the node and sgadmin
identities. -/
theorem generateCerts_conversion_selectivity (env : Env)
    (configDir certsDir ns cn : String)
    (h : (GenerateCertsRun env configDir certsDir ns cn).1 = .ok ()) :
    (((certsDir ++ "/" ++ "kibana") ++ ".pem") ∈
        ((GenerateCertsRun env configDir certsDir ns cn).2.flatMap stepOutputs) ∧
     ((certsDir ++ "/" ++ "kibana") ++ "-key.pem") ∈
        ((GenerateCertsRun env configDir certsDir ns cn).2.flatMap stepOutputs) ∧
     ((certsDir ++ "/" ++ "cerebro") ++ ".pem") ∈
        ((GenerateCertsRun env configDir certsDir ns cn).2.flatMap stepOutputs) ∧
     ((certsDir ++ "/" ++ "cerebro") ++ "-key.pem") ∈
        ((GenerateCertsRun env configDir certsDir ns cn).2.flatMap stepOutputs)) ∧
    (∀ s ∈ (GenerateCertsRun env configDir certsDir ns cn).2,
      (stepCmds s).any Cmd.isPkcs8 = true →
      s = Step.convert "node" (cmdConvertNodePkcs8 certsDir)) ∧
    (∀ s ∈ (GenerateCertsRun env configDir certsDir ns cn).2,
      (stepCmds s).any (fun c => c.isPkcs12 || c.isImportKeystore) = true →
      s = Step.convert "sgadmin" (cmdConvertSgadmin certsDir) ∨
      s = Step.convert "node" (cmdConvertNode certsDir) ∨
      s = Step.convert "sgadmin" (cmdSgadminJKS certsDir) ∨
      s = Step.convert "node" (cmdNodeJKS certsDir)) := by
  have htr := run_ok_trace env configDir certsDir ns cn h
  refine ⟨⟨?_, ?_, ?_, ?_⟩, ?_, ?_⟩
  · rw [htr]
    refine List.mem_flatMap.mpr ⟨Step.issueLeaf "kibana"
      (cmdLeaf1 configDir certsDir "kibana") (cmdLeaf2 certsDir "kibana"),
      ?_, ?_⟩
    · rw [fullTrace_eq]; simp
    · exact List.Mem.head _
  · rw [htr]
    refine List.mem_flatMap.mpr ⟨Step.issueLeaf "kibana"
      (cmdLeaf1 configDir certsDir "kibana") (cmdLeaf2 certsDir "kibana"),
      ?_, ?_⟩
    · rw [fullTrace_eq]; simp
    · exact List.Mem.tail _ (List.Mem.head _)
  · rw [htr]
    refine List.mem_flatMap.mpr ⟨Step.issueLeaf "cerebro"
      (cmdLeaf1 configDir certsDir "cerebro") (cmdLeaf2 certsDir "cerebro"),
      ?_, ?_⟩
    · rw [fullTrace_eq]; simp
    · exact List.Mem.head _
  · rw [htr]
    refine List.mem_flatMap.mpr ⟨Step.issueLeaf "cerebro"
      (cmdLeaf1 configDir certsDir "cerebro") (cmdLeaf2 certsDir "cerebro"),
      ?_, ?_⟩
    · rw [fullTrace_eq]; simp
    · exact List.Mem.tail _ (List.Mem.head _)
  · intro s hs hp
    rw [htr, fullTrace_eq] at hs
    simp only [List.mem_cons, List.not_mem_nil, or_false] at hs
    rcases hs with rfl | rfl | rfl | rfl | rfl | rfl | rfl | rfl | rfl | rfl |
      rfl | rfl | rfl | rfl | rfl | rfl | rfl | rfl | rfl <;>
      first
        | rfl
        | exact (Bool.false_ne_true hp).elim
  · intro s hs hp
    rw [htr, fullTrace_eq] at hs
    simp only [List.mem_cons, List.not_mem_nil, or_false] at hs
    rcases hs with rfl | rfl | rfl | rfl | rfl | rfl | rfl | rfl | rfl | rfl |
      rfl | rfl | rfl | rfl | rfl | rfl | rfl | rfl | rfl <;>
      first
        | exact Or.inl rfl
        | exact Or.inr (Or.inl rfl)
        | exact Or.inr (Or.inr (Or.inl rfl))
        | exact Or.inr (Or.inr (Or.inr rfl))
        | exact (Bool.false_ne_true hp).elim

/-- C5 witness: the amended theorem at a concrete successful run — the
kibana PEM certificate is among the produced files. -/
theorem generateCerts_conversion_selectivity_witness :
    (("certs" ++ "/" ++ "kibana") ++ ".pem") ∈
      ((GenerateCertsRun okEnv "cfg" "certs" "logging" "prod").2.flatMap
        stepOutputs) :=
  (generateCerts_conversion_selectivity okEnv "cfg" "certs" "logging" "prod"
    rfl).1.1

/-- C6: stage ordering of `GenerateCerts` — cleanup and descriptor
writing precede CA issuance; CA issuance precedes every leaf issuance;
each leaf's issuance precedes every conversion of that leaf's artifacts;
every non-conversion step precedes every conversion; and bundle assembly
is impossible before the conversions have run: it fails without the two
keystores, and `node-keystore.jks` is produced only by the final step of
the run. -/
theorem generateCerts_stage_ordering (configDir certsDir ns cn : String) :
    precedes (fullTrace configDir certsDir ns cn)
      (fun s => s.isClean || s.isWrite) Step.isCA ∧
    precedes (fullTrace configDir certsDir ns cn) Step.isCA Step.isLeaf ∧
    (∀ nm i j (h1 : i < (fullTrace configDir certsDir ns cn).length)
        (h2 : j < (fullTrace configDir certsDir ns cn).length),
      leafNameAt ((fullTrace configDir certsDir ns cn).get ⟨i, h1⟩) = some nm →
      convertSubjectAt ((fullTrace configDir certsDir ns cn).get ⟨j, h2⟩) =
        some nm →
      i < j) ∧
    precedes (fullTrace configDir certsDir ns cn)
      (fun s => !s.isConvert) Step.isConvert ∧
    (∀ fs : String → Option String,
      (fs (certsDir ++ "/" ++ "node-keystore.jks") = none ∨
       fs (certsDir ++ "/" ++ "sgadmin-keystore.jks") = none) →
      ∃ e, CreateCertsSecret fs certsDir = .error e) ∧
    (fullTrace configDir certsDir ns cn).getLast? =
      some (Step.convert "node" (cmdNodeJKS certsDir)) ∧
    ((certsDir ++ "/" ++ "node-keystore.jks") ∈
      stepOutputs (Step.convert "node" (cmdNodeJKS certsDir))) ∧
    (∀ s ∈ fullTrace configDir certsDir ns cn,
      (certsDir ++ "/" ++ "node-keystore.jks") ∈ stepOutputs s →
      s = Step.convert "node" (cmdNodeJKS certsDir)) := by
  refine ⟨stepsBefore_spec (fun s => s.isClean || s.isWrite) Step.isCA
      (fullTrace configDir certsDir ns cn) rfl,
    stepsBefore_spec Step.isCA Step.isLeaf
      (fullTrace configDir certsDir ns cn) rfl, ?_,
    stepsBefore_spec (fun s => !s.isConvert) Step.isConvert
      (fullTrace configDir certsDir ns cn) rfl,
    fun fs => createCertsSecret_error_of_missing fs certsDir, rfl, ?_, ?_⟩
  · intro nm i j h1 h2 hl hc
    exact stepsBefore_spec Step.isLeaf Step.isConvert
      (fullTrace configDir certsDir ns cn) rfl i j h1 h2
      (leafNameAt_isLeaf _ _ hl) (convertSubjectAt_isConvert _ _ hc)
  · rw [append_append_eq certsDir rfl]
    exact List.Mem.head _
  · intro s hs hmem
    rw [fullTrace_eq] at hs
    simp only [List.mem_cons, List.not_mem_nil, or_false] at hs
    rcases hs with rfl | rfl | rfl | rfl | rfl | rfl | rfl | rfl | rfl | rfl |
      rfl | rfl | rfl | rfl | rfl | rfl | rfl | rfl | rfl
    · exact (List.not_mem_nil _ hmem).elim
    · exact (List.not_mem_nil _ hmem).elim
    · exact absurd (List.mem_singleton.mp hmem)
        (append_ne_append _ _ (by decide) (by decide))
    · exact absurd (List.mem_singleton.mp hmem)
        (append_ne_append _ _ (by decide) (by decide))
    · exact absurd (List.mem_singleton.mp hmem)
        (append_ne_append _ _ (by decide) (by decide))
    · exact absurd (List.mem_singleton.mp hmem)
        (append_ne_append _ _ (by decide) (by decide))
    · exact absurd (List.mem_singleton.mp hmem)
        (append_ne_append _ _ (by decide) (by decide))
    · exact absurd (List.mem_singleton.mp hmem)
        (append_ne_append _ _ (by decide) (by decide))
    · have h2 : certsDir ++ "/" ++ "node-keystore.jks" ∈
          [(certsDir ++ "/ca") ++ ".pem", (certsDir ++ "/ca") ++ "-key.pem"] :=
        hmem
      simp only [List.mem_cons, List.not_mem_nil, or_false] at h2
      rcases h2 with h2 | h2
      · exact absurd h2 (append_ne_append _ _ (by decide) (by decide))
      · exact absurd h2 (append_ne_append _ _ (by decide) (by decide))
    · have h2 : certsDir ++ "/" ++ "node-keystore.jks" ∈
          [(certsDir ++ "/" ++ "node") ++ ".pem",
           (certsDir ++ "/" ++ "node") ++ "-key.pem"] := hmem
      simp only [List.mem_cons, List.not_mem_nil, or_false] at h2
      rcases h2 with h2 | h2
      · exact absurd h2 (append_ne_append _ _ (by decide) (by decide))
      · exact absurd h2 (append_ne_append _ _ (by decide) (by decide))
    · have h2 : certsDir ++ "/" ++ "node-keystore.jks" ∈
          [(certsDir ++ "/" ++ "kibana") ++ ".pem",
           (certsDir ++ "/" ++ "kibana") ++ "-key.pem"] := hmem
      simp only [List.mem_cons, List.not_mem_nil, or_false] at h2
      rcases h2 with h2 | h2
      · exact absurd h2 (append_ne_append _ _ (by decide) (by decide))
      · exact absurd h2 (append_ne_append _ _ (by decide) (by decide))
    · have h2 : certsDir ++ "/" ++ "node-keystore.jks" ∈
          [(certsDir ++ "/" ++ "cerebro") ++ ".pem",
           (certsDir ++ "/" ++ "cerebro") ++ "-key.pem"] := hmem
      simp only [List.mem_cons, List.not_mem_nil, or_false] at h2
      rcases h2 with h2 | h2
      · exact absurd h2 (append_ne_append _ _ (by decide) (by decide))
      · exact absurd h2 (append_ne_append _ _ (by decide) (by decide))
    · have h2 : certsDir ++ "/" ++ "node-keystore.jks" ∈
          [(certsDir ++ "/" ++ "sgadmin") ++ ".pem",
           (certsDir ++ "/" ++ "sgadmin") ++ "-key.pem"] := hmem
      simp only [List.mem_cons, List.not_mem_nil, or_false] at h2
      rcases h2 with h2 | h2
      · exact absurd h2 (append_ne_append _ _ (by decide) (by decide))
      · exact absurd h2 (append_ne_append _ _ (by decide) (by decide))
    · exact absurd (List.mem_singleton.mp hmem)
        (append_ne_append _ _ (by decide) (by decide))
    · exact absurd (List.mem_singleton.mp hmem)
        (append_ne_append _ _ (by decide) (by decide))
    · exact absurd (List.mem_singleton.mp hmem)
        (append_ne_append _ _ (by decide) (by decide))
    · exact absurd (List.mem_singleton.mp hmem)
        (append_ne_append _ _ (by decide) (by decide))
    · exact absurd (List.mem_singleton.mp hmem)
        (append_ne_append _ _ (by decide) (by decide))
    · rfl

/-- C6 witness: concrete instances — the first cleanup step precedes the
CA issuance at position 8, and assembly on an empty filesystem fails. -/
theorem generateCerts_stage_ordering_witness :
    (0 : Nat) < 8 ∧ (∃ e, CreateCertsSecret fsAbsent "certs" = .error e) := by
  have h := generateCerts_stage_ordering "cfg" "certs" "logging" "prod"
  exact ⟨h.1 0 8 (by decide) (by decide) (by decide) (by decide),
    h.2.2.2.2.1 fsAbsent (Or.inl rfl)⟩

end K8sutil
